import Mathlib

/-!
Verification of the contextual lead-scoring engine of the `mvp_crm` repository.

The development shallowly embeds the two parsing modules
(`myparser/channel_parser.py` and `myparser/ai_context_parser.py`) into Lean:

* Python strings are Lean `String`s (equivalently their `List Char` data);
  Python `str.lower`, substring tests (`x in s`), slicing (`s[-n:]`, `s[:n]`)
  and f-string key construction (`f"{a}:{b}"`) are modelled by executable
  functions below.  `str(int)` is modelled by an explicit decimal printer.
* Python `datetime` values are modelled as `Nat` timestamps counted in
  seconds; `timedelta(minutes=30)` is `1800`, `timedelta(hours=h)` is
  `h * 3600`.  `datetime` subtraction in the source only ever compares a
  later time against an earlier one, which truncated `Nat` subtraction models.
* Dynamically-typed JSON values produced by `json.loads` are modelled by the
  inductive `PyVal` (None / bool / int / str / list); Python truthiness and
  the `int(...)` conversion (which can raise) are modelled explicitly.
  CPython's seeded string `hash` is not reproducible, so every definition
  that uses it takes the hash function as an explicit argument `hashFn`.
* Python dicts (which preserve insertion order) are association lists with
  in-place update.  The Python *set* `processed_messages` is represented by
  the list of its elements; since CPython set iteration order is arbitrary
  and hash-seed dependent, the enumeration `list(...)` taken during the
  batch prune is an explicit oracle argument `setEnum`, exactly as the
  seeded string `hash` is the oracle `hashFn`.
* `await`-ed remote calls are replaced by an explicit outcome parameter
  (`RemoteOutcome` / `ChanRemote`): unavailable client, timeout, other
  failure, or a successful structured response.
-/

/-! ## Python string primitives -/

/-- Python `str.lower` on the alphabets the keyword lists use:
ASCII `A`-`Z` and Cyrillic `А`-`Я` / `Ё` map to their lowercase forms,
all other characters are unchanged. -/
def pyLowerChar (c : Char) : Char :=
  if 65 ≤ c.toNat ∧ c.toNat ≤ 90 then Char.ofNat (c.toNat + 32)
  else if 0x410 ≤ c.toNat ∧ c.toNat ≤ 0x42F then Char.ofNat (c.toNat + 32)
  else if c.toNat = 0x401 then Char.ofNat 0x451
  else c

/-- Python `message_text.lower()`. -/
def pyLower (s : String) : String :=
  ⟨s.data.map pyLowerChar⟩

/-- Does the first list occur at the head of the second one? -/
def startsWith : List Char → List Char → Bool
  | [], _ => true
  | _ :: _, [] => false
  | a :: as, b :: bs => a = b && startsWith as bs

/-- Does `needle` occur contiguously anywhere in `hay`?
Models the Python expression `needle in hay` on strings. -/
def hasSubstr (needle : List Char) : List Char → Bool
  | [] => needle.isEmpty
  | b :: bs => startsWith needle (b :: bs) || hasSubstr needle bs

/-- Python `needle in hay` on `String`s. -/
def strIn (needle hay : String) : Bool :=
  hasSubstr needle.data hay.data

/-- Python `any(word in hay for word in words)`, and also the
`for word in words: if word in hay: ...; break` pattern, which adds a
category's weight at most once. -/
def anyIn (words : List String) (hay : String) : Bool :=
  words.any (fun w => strIn w hay)

/-! ## The heuristic scorer (`ChannelParser._simple_lead_analysis`) -/

/-- Keyword category: CRM and sales automation (weight 50). -/
def crm_words : List String :=
  ["crm", "црм", "customer relationship", "клиентская база",
   "управление клиентами", "автоматизация продаж", "система продаж",
   "продажная воронка", "sales funnel", "лидогенерация", "lead generation"]

/-- Keyword category: bots and Telegram automation (weight 45). -/
def bot_words : List String :=
  ["telegram bot", "телеграм бот", "чат бот", "chatbot", "бот для продаж",
   "автоответчик", "автоматические ответы", "обработка заявок",
   "прием заявок", "telegram api", "webhook"]

/-- Keyword category: stated business problems (weight 40). -/
def business_problems : List String :=
  ["не успеваем обрабатывать", "много заявок", "теряем клиентов",
   "нужна система", "ищу решение", "как автоматизировать",
   "эффективность продаж", "увеличить конверсию", "больше продаж",
   "автоматический ответ", "обработка сообщений", "учет клиентов"]

/-- Keyword category: buying intent (weight 35). -/
def buying_intent : List String :=
  ["ищу", "нужно", "требуется", "хочу заказать", "планирую купить",
   "рассматриваю покупку", "интересует стоимость", "бюджет есть",
   "готов платить", "нужна консультация", "где заказать", "кто делает",
   "готов купить", "готов заказать"]

/-- Keyword category: technical integration requests (weight 30). -/
def tech_requests : List String :=
  ["api интеграция", "интеграция с", "подключить к", "разработка под заказ",
   "кастомная разработка", "индивидуальное решение", "техническое задание",
   "настройка системы", "внедрение crm"]

/-- Keyword category: named competitors and alternatives (weight 25). -/
def competitors : List String :=
  ["bitrix24", "amocrm", "megaplan", "pipedrive", "salesforce",
   "не устраивает текущая система", "ищу альтернативу", "смена crm"]

/-- Interrogative markers (bonus 15). -/
def question_words : List String :=
  ["как", "что", "где", "кто может", "кто делает", "посоветуйте", "?"]

/-- Known-irrelevant terms (penalty 30). -/
def irrelevant : List String :=
  ["продаю", "куплю авто", "недвижимость", "знакомства", "работа",
   "вакансия", "резюме", "спам", "реклама", "+", "цена за"]

/-- A character kept by `re.sub(r'[^\w\s]', '', text)`: a word character
(ASCII alphanumeric, underscore, Cyrillic letters) or whitespace, on the
alphabets appearing in this system. -/
def wordOrSpaceChar (c : Char) : Bool :=
  (48 ≤ c.toNat ∧ c.toNat ≤ 57) ∨ (65 ≤ c.toNat ∧ c.toNat ≤ 90) ∨
  (97 ≤ c.toNat ∧ c.toNat ≤ 122) ∨ c.toNat = 95 ∨
  (0x410 ≤ c.toNat ∧ c.toNat ≤ 0x44F) ∨ c.toNat = 0x401 ∨ c.toNat = 0x451 ∨
  c.toNat = 32 ∨ c.toNat = 9 ∨ c.toNat = 10 ∨ c.toNat = 13 ∨
  c.toNat = 11 ∨ c.toNat = 12

/-- `ChannelParser._simple_lead_analysis` (channel_parser.py lines 175-286):
the deterministic keyword-weight scorer.  Each keyword category contributes
its weight at most once (the source loops `break` on first match); bonuses
for questions and long texts and penalties for irrelevant, short, or
symbol-only texts are then applied, and the result is clamped by
`max(0, min(100, score))`. -/
def simple_lead_analysis (message_text : String) : Int :=
  if message_text.data.isEmpty then 0
  else
    let ml := pyLower message_text
    let score : Int := 0
    let score := if anyIn crm_words ml then score + 50 else score
    let score := if anyIn bot_words ml then score + 45 else score
    let score := if anyIn business_problems ml then score + 40 else score
    let score := if anyIn buying_intent ml then score + 35 else score
    let score := if anyIn tech_requests ml then score + 30 else score
    let score := if anyIn competitors ml then score + 25 else score
    let score := if anyIn question_words ml then score + 15 else score
    let score := if message_text.data.length > 50 then score + 10 else score
    let score := if message_text.data.length > 150 then score + 5 else score
    let score := if anyIn irrelevant ml then score - 30 else score
    let score := if message_text.data.length < 20 then score - 15 else score
    let score := if (message_text.data.filter wordOrSpaceChar).length < 10
                 then score - 20 else score
    max 0 (min 100 score)

/-! ## Dynamically-typed JSON values (for `_parse_ai_response`) -/

/-- A Python value as produced by `json.loads` on the classifier response
(restricted to the shapes the response schema uses: null, booleans,
integers, strings and lists). -/
inductive PyVal where
  | none : PyVal
  | bool : Bool → PyVal
  | int : Int → PyVal
  | str : String → PyVal
  | list : List PyVal → PyVal

/-- Python truthiness, as applied by `bool(...)`: `None`, `False`, `0`,
the empty string and the empty list are falsy, everything else is truthy. -/
def pyTruthy : PyVal → Bool
  | .none => false
  | .bool b => b
  | .int n => n ≠ 0
  | .str s => s ≠ ""
  | .list l => ¬ l.isEmpty

/-- Conversion of a decimal digit character. -/
def charDigit (c : Char) : Option Nat :=
  if 48 ≤ c.toNat ∧ c.toNat ≤ 57 then some (c.toNat - 48) else Option.none

/-- Parse an unsigned run of decimal digits (at least one). -/
def parseDigits : List Char → Option Nat
  | [] => Option.none
  | [c] => charDigit c
  | c :: rest => do
      let d ← charDigit c
      let r ← parseDigits rest
      pure (d * 10 ^ rest.length + r)

/-- Python `int(s)` on a string: an optional sign followed by digits
(anything else raises `ValueError`). -/
def pyIntOfStr (s : String) : Option Int :=
  match s.data with
  | '-' :: rest => (parseDigits rest).map (fun n => -(n : Int))
  | '+' :: rest => (parseDigits rest).map (fun n => (n : Int))
  | l => (parseDigits l).map (fun n => (n : Int))

/-- Python `int(x)`: booleans convert to 0/1, integers are unchanged,
strings are parsed; `None` and lists raise `TypeError` (modelled as
`Option.none`). -/
def pyInt : PyVal → Option Int
  | .bool b => some (if b then 1 else 0)
  | .int n => some n
  | .str s => pyIntOfStr s
  | _ => Option.none

/-- A JSON object, in insertion order (`json.loads` result). -/
abbrev PyDict := List (String × PyVal)

/-- Python `data.get(key, default)`. -/
def dictGet (d : PyDict) (key : String) (dfl : PyVal) : PyVal :=
  match d.lookup key with
  | some v => v
  | Option.none => dfl

/-! ## `AIAnalysisResult` and `_parse_ai_response` -/

/-- The `AIAnalysisResult` dataclass (ai_context_parser.py lines 32-46).
`is_lead` and `confidence_score` are always a bool and an int; the
remaining fields simply hold whatever Python value the response supplied
(the source performs no validation on them), hence `PyVal`. -/
structure AIAnalysisResult where
  is_lead : Bool
  confidence_score : Int
  lead_quality : PyVal
  interests : PyVal
  buying_signals : PyVal
  urgency_level : PyVal
  recommended_action : PyVal
  key_insights : PyVal
  estimated_budget : PyVal
  timeline : PyVal
  pain_points : PyVal
  decision_stage : PyVal

/-- The fixed fallback result built in the `except` branch of
`_parse_ai_response` (lines 388-402). -/
def failureResult : AIAnalysisResult :=
  { is_lead := false
    confidence_score := 0
    lead_quality := .str "not_lead"
    interests := .list []
    buying_signals := .list []
    urgency_level := .str "none"
    recommended_action := .str "Анализ не удался"
    key_insights := .list []
    estimated_budget := .none
    timeline := .none
    pain_points := .list []
    decision_stage := .str "awareness" }

/-- `AIContextParser._parse_ai_response` (lines 356-402).  The regex
search for a JSON object and `json.loads` are summarised by the input:
`Option.none` stands for "no JSON found or `json.loads` raised", in which
case the `except` branch returns `failureResult`.  On a parsed object the
fields are extracted with `data.get` defaults; `int()` applied to the
confidence score can raise, which also lands in the `except` branch; a
successful conversion is clamped by `max(0, min(100, ...))`. -/
def parse_ai_response (resp : Option PyDict) : AIAnalysisResult :=
  match resp with
  | Option.none => failureResult
  | some data =>
    match pyInt (dictGet data "confidence_score" (.int 0)) with
    | Option.none => failureResult
    | some n =>
      { is_lead := pyTruthy (dictGet data "is_lead" (.bool false))
        confidence_score := max 0 (min 100 n)
        lead_quality := dictGet data "lead_quality" (.str "not_lead")
        interests := dictGet data "interests" (.list [])
        buying_signals := dictGet data "buying_signals" (.list [])
        urgency_level := dictGet data "urgency_level" (.str "none")
        recommended_action := dictGet data "recommended_action" (.str "")
        key_insights := dictGet data "key_insights" (.list [])
        estimated_budget := dictGet data "estimated_budget" .none
        timeline := dictGet data "timeline" .none
        pain_points := dictGet data "pain_points" (.list [])
        decision_stage := dictGet data "decision_stage" (.str "awareness") }

/-! ## Decimal printing and `f"{a}:{b}"` keys -/

/-- The character for a single decimal digit. -/
def digitChar : Nat → Char
  | 0 => '0' | 1 => '1' | 2 => '2' | 3 => '3' | 4 => '4'
  | 5 => '5' | 6 => '6' | 7 => '7' | 8 => '8' | 9 => '9'
  | _ => '*'

/-- Most-significant-first decimal digits of a natural number, with an
explicit structural fuel (any fuel above the argument is enough). -/
def natToChars (fuel : Nat) (n : Nat) : List Char :=
  match fuel with
  | 0 => []
  | fuel + 1 =>
    if n < 10 then [digitChar n]
    else natToChars fuel (n / 10) ++ [digitChar (n % 10)]

/-- Python `str(n)` for a natural number. -/
def pyStrNat (n : Nat) : List Char :=
  natToChars (n + 1) n

/-- Python `str(i)` for an integer (a leading minus sign when negative). -/
def pyStrInt (i : Int) : List Char :=
  if i < 0 then '-' :: pyStrNat i.natAbs else pyStrNat i.toNat

/-- An f-string key of the shape `f"{a}:{b}"` over two integers, as built
both for the analysis cache (`f"{user_id}:{hash(texts)}"`) and for the
seen-message set (`f"{chat_id}:{message_id}"`). -/
def pyColonKey (a b : Int) : List Char :=
  pyStrInt a ++ ':' :: pyStrInt b

/-! ## Python slicing and joining -/

/-- Python `xs[-m:]` where `m` is an integer expression: for positive `m`
the last `m` elements, for `m = 0` the whole list (since `-0 = 0`), and for
negative `m` the slice `xs[|m|:]`. -/
def pySliceLast (m : Int) (xs : List α) : List α :=
  if 0 < m then xs.drop (xs.length - m.toNat)
  else if m = 0 then xs
  else xs.drop m.natAbs

/-- Python `xs[:n]` for a nonnegative literal `n`. -/
def pySliceFirst (n : Nat) (xs : List α) : List α :=
  xs.take n

/-- Python `sep.join(items)`. -/
def pyJoin (sep : String) : List String → String
  | [] => ""
  | [x] => x
  | x :: rest => x ++ sep ++ pyJoin sep rest

/-! ## `UserContext` and the context store -/

/-- One recorded message entry, as stored by `_update_user_context`
(ai_context_parser.py lines 169-174): the source text, the transport
timestamp, the message id, and the local recording time. -/
structure Msg where
  text : String
  date : Nat
  message_id : Int
  timestamp : Nat
deriving DecidableEq, Repr

/-- The channel metadata snapshot stored in a context. -/
structure ChannelInfo where
  id : Int
  title : Option String
  username : Option String
  kind : Option String
deriving DecidableEq, Repr

/-- The `UserContext` dataclass (ai_context_parser.py lines 20-30). -/
structure UserContext where
  user_id : Int
  username : Option String
  first_name : Option String
  last_name : Option String
  messages : List Msg
  first_seen : Nat
  last_activity : Nat
  channel_info : ChannelInfo
deriving DecidableEq, Repr

/-- `AIContextParser._update_user_context` on an existing context
(lines 166-186): append the new message entry, refresh `last_activity`
and the profile snapshot, then truncate the message list to
`messages[-max_context_messages:]` whenever its length exceeds
`max_context_messages`. -/
def update_user_context (max_context_messages : Int)
    (username first_name last_name : Option String)
    (ctx : UserContext) (m : Msg) (now : Nat) : UserContext :=
  let msgs := ctx.messages ++ [m]
  { ctx with
    messages :=
      if (msgs.length : Int) > max_context_messages
      then pySliceLast max_context_messages msgs else msgs
    last_activity := now
    username := username
    first_name := first_name
    last_name := last_name }

/-- The analysis cache: a Python dict in insertion order, keyed by the
`f"{user_id}:{hash(texts)}"` string. -/
abbrev AnalysisCache := List (List Char × AIAnalysisResult)

/-- Lookup in an insertion-ordered dict. -/
def lookupCache (c : AnalysisCache) (k : List Char) : Option AIAnalysisResult :=
  match c with
  | [] => Option.none
  | (k', v) :: rest => if k' = k then some v else lookupCache rest k

/-- Python dict assignment `d[k] = v`: an existing key keeps its position
and gets the new value, a fresh key is appended at the end. -/
def dictSet (c : AnalysisCache) (k : List Char) (v : AIAnalysisResult) :
    AnalysisCache :=
  match c with
  | [] => [(k, v)]
  | (k', v') :: rest =>
    if k' = k then (k', v) :: rest else (k', v') :: dictSet rest k v

/-- The cache store of `_analyze_user_context` (lines 259-267): assign the
entry, then, if the dict has grown past 1000 entries, delete the first
(oldest) 500 keys of its iteration order. -/
def cacheStore (c : AnalysisCache) (k : List Char) (v : AIAnalysisResult) :
    AnalysisCache :=
  let c1 := dictSet c k v
  if c1.length > 1000 then c1.drop 500 else c1

/-- The fingerprint of a context, as computed in `_analyze_user_context`
(lines 227-229): `f"{user_id}:{hash(' | '.join(last 5 message texts))}"`.
`hashFn` stands for CPython's seeded string hash. -/
def analysisCacheKey (hashFn : String → Int) (ctx : UserContext) : List Char :=
  pyColonKey ctx.user_id
    (hashFn (pyJoin " | " ((pySliceLast 5 ctx.messages).map Msg.text)))

/-- The outcome of the guarded remote-classifier call in
`_analyze_user_context`: the client may be unconfigured (checked before
the cache), the `asyncio.wait_for` may expire, any other exception may be
raised, or a response text arrives (already summarised as the result of
the JSON-extraction stage, as in `parse_ai_response`). -/
inductive RemoteOutcome where
  | unavailable : RemoteOutcome
  | timeout : RemoteOutcome
  | failure : RemoteOutcome
  | success : Option PyDict → RemoteOutcome

/-- The remote call and its aftermath, reached only on a cache miss:
a successful response is parsed and stored through `cacheStore`; a
timeout or any other failure yields `None` and leaves the cache alone. -/
def remoteEval (cache : AnalysisCache) (key : List Char)
    (outcome : RemoteOutcome) : Option AIAnalysisResult × AnalysisCache :=
  match outcome with
  | .success resp =>
    let r := parse_ai_response resp
    (some r, cacheStore cache key r)
  | _ => (Option.none, cache)

/-- `AIContextParser._analyze_user_context` (lines 219-280): `None` when
the remote client is unavailable; otherwise compute the fingerprint,
return a cached result on a hit, and on a miss run the remote call with
`remoteEval`. -/
def analyze_user_context (hashFn : String → Int) (outcome : RemoteOutcome)
    (cache : AnalysisCache) (ctx : UserContext) :
    Option AIAnalysisResult × AnalysisCache :=
  match outcome with
  | .unavailable => (Option.none, cache)
  | o =>
    let key := analysisCacheKey hashFn ctx
    match lookupCache cache key with
    | some r => (some r, cache)
    | Option.none => remoteEval cache key o

/-! ## The per-user cool-down gate (`processed_leads`) -/

/-- The `processed_leads` map: user id, time (seconds) of the last
accepted evaluation. -/
abbrev ProcessedLeads := List (Int × Nat)

/-- Lookup in the `processed_leads` dict. -/
def lookupLead (st : ProcessedLeads) (uid : Int) : Option Nat :=
  match st with
  | [] => Option.none
  | (u, t) :: rest => if u = uid then some t else lookupLead rest uid

/-- Python dict assignment on `processed_leads`. -/
def setLead (st : ProcessedLeads) (uid : Int) (t : Nat) : ProcessedLeads :=
  match st with
  | [] => [(uid, t)]
  | (u, t') :: rest =>
    if u = uid then (u, t) :: rest else (u, t') :: setLead rest uid t

/-- `AIContextParser._was_recently_analyzed` (lines 211-217): true when
the user has an entry less than `context_window_hours` old. -/
def was_recently_analyzed (context_window_hours : Nat)
    (st : ProcessedLeads) (uid : Int) (now : Nat) : Bool :=
  match lookupLead st uid with
  | some last => now - last < context_window_hours * 3600
  | Option.none => false

/-- One message event as it reaches the cool-down gate of
`AIContextParser.process_message` (lines 118-131): the arrival time, the
user, and whether the evaluation — were it to run — would be accepted
(`analysis and analysis.is_lead and analysis.confidence_score >=
min_confidence_score`).  Messages stopped by the earlier gates never touch
`processed_leads` and are omitted. -/
structure EvalEvent where
  time : Nat
  userId : Int
  accepted : Bool
deriving DecidableEq, Repr

/-- The cool-down portion of `process_message`, run over a sequence of
events: an event whose user was recently analyzed is skipped; an accepted
evaluation is emitted and recorded in `processed_leads` at its time.
Returns the list of emitted (user, time) lead events. -/
def dedup_run (context_window_hours : Nat) (st : ProcessedLeads) :
    List EvalEvent → List (Int × Nat)
  | [] => []
  | e :: rest =>
    if was_recently_analyzed context_window_hours st e.userId e.time then
      dedup_run context_window_hours st rest
    else if e.accepted then
      (e.userId, e.time) ::
        dedup_run context_window_hours (setLead st e.userId e.time) rest
    else
      dedup_run context_window_hours st rest

/-! ## The channel parser (`ChannelParser`) -/

/-- Outcome of the guarded remote call in `ChannelParser._analyze_message`
(lines 152-173): client unconfigured, `asyncio.wait_for` timeout, any
other exception, or a numeric score from `analyze_potential_lead`. -/
inductive ChanRemote where
  | unavailable : ChanRemote
  | timeout : ChanRemote
  | failure : ChanRemote
  | success : Int → ChanRemote

/-- `ChannelParser._analyze_message`: the remote score when the call
succeeds; `_simple_lead_analysis` when the client is unconfigured, the
call times out, or any exception is raised. -/
def analyze_message (outcome : ChanRemote) (message_text : String) : Int :=
  match outcome with
  | .success s => s
  | _ => simple_lead_analysis message_text

/-- A lead record as far as this engine constructs it (database/models.py
is outside the parsing core; only the fields the claims observe are
kept). -/
structure LeadRec where
  telegram_id : Int
  interest_score : Int
  message_text : String
deriving DecidableEq, Repr

/-- The mutable state of a `ChannelParser`: the seen-message set
`processed_messages` (a Python set, represented by the list of its
elements; the program only ever observes membership, and the arbitrary
iteration order that `list(...)` produces during the batch prune is
supplied separately as the `setEnum` oracle), the `recent_leads_cache`
dict, and — for observation — the leads emitted so far. -/
structure ChanState where
  processed_messages : List (List Char)
  recent_leads_cache : List (List Char × Nat)
  leads : List LeadRec
deriving DecidableEq, Repr

/-- Lookup in `recent_leads_cache`. -/
def lookupRecent (c : List (List Char × Nat)) (k : List Char) : Option Nat :=
  match c with
  | [] => Option.none
  | (k', t) :: rest => if k' = k then some t else lookupRecent rest k

/-- Python dict assignment on `recent_leads_cache`. -/
def setRecent (c : List (List Char × Nat)) (k : List Char) (t : Nat) :
    List (List Char × Nat) :=
  match c with
  | [] => [(k, t)]
  | (k', t') :: rest =>
    if k' = k then (k', t) :: rest else (k', t') :: setRecent rest k t

/-- `ChannelParser._cleanup_leads_cache` (lines 136-150): drop entries
older than one hour. -/
def cleanup_leads_cache (now : Nat) (c : List (List Char × Nat)) :
    List (List Char × Nat) :=
  c.filter (fun kv => ¬ (now - kv.2 > 3600))

/-- `ChannelParser.process_message` (lines 52-134).  The `(chatID,
messageID)` dedup key is added to `processed_messages` unconditionally as
soon as it is found absent — before the message is scored.  When the set
then holds more than 10000 entries, the first 5000 entries of
`list(self.processed_messages)` are discarded; CPython does not specify
that enumeration (it is hash-seed dependent and may list the key just
added anywhere), so it is taken from the oracle `setEnum` applied to the
set's elements.  The message is then scored; above the threshold, and
when neither the 24h database check (`leadInDb`) nor `recent_leads_cache`
knows the lead key, a lead is emitted and the lead key recorded.  On a
key already seen the whole handler returns at once. -/
def chan_process_message (min_interest_score : Int) (hashFn : String → Int)
    (setEnum : List (List Char) → List (List Char)) (outcome : ChanRemote)
    (leadInDb : Bool) (now : Nat) (st : ChanState)
    (chat_id message_id user_id : Int) (message_text : String) : ChanState :=
  let message_key := pyColonKey chat_id message_id
  if message_key ∈ st.processed_messages then st
  else
    let p1 := st.processed_messages ++ [message_key]
    let p2 := if p1.length > 10000
              then p1.filter (fun k => decide (k ∉ pySliceFirst 5000 (setEnum p1)))
              else p1
    let interest_score := analyze_message outcome message_text
    if interest_score ≥ min_interest_score then
      let lead_key :=
        pyColonKey user_id (hashFn ⟨pySliceFirst 100 message_text.data⟩)
      if ¬ leadInDb ∧ lookupRecent st.recent_leads_cache lead_key = Option.none
      then
        { processed_messages := p2
          recent_leads_cache :=
            cleanup_leads_cache now (setRecent st.recent_leads_cache lead_key now)
          leads := st.leads ++ [⟨user_id, interest_score, message_text⟩] }
      else { st with processed_messages := p2 }
    else { st with processed_messages := p2 }

/-! ## Concrete fixtures used by counterexamples and witnesses -/

/-- A context holding the single Scenario-A message, quiet since time 0. -/
def ctxA : UserContext :=
  { user_id := 7
    username := Option.none
    first_name := Option.none
    last_name := Option.none
    messages := [⟨"сколько стоит ваша CRM?", 0, 1, 0⟩]
    first_seen := 0
    last_activity := 0
    channel_info := ⟨-100, Option.none, Option.none, Option.none⟩ }

/-- A second context, identical to `ctxA` except for the user id. -/
def ctxB : UserContext :=
  { ctxA with user_id := 8 }

/-- 10000 distinct seen-message keys (users of chat 0). -/
def bigKeys : List (List Char) :=
  (List.range 10000).map (fun i => pyColonKey 0 (Int.ofNat i))

/-- A channel-parser state whose seen-message set already holds 10000
distinct keys, so that the next fresh key triggers the batch prune. -/
def bigChanState : ChanState :=
  ⟨bigKeys, [], []⟩

/-- A possible CPython set-iteration order in which the key `"1:2"` is
listed first (for any collection containing it, this is a permutation of
its elements, hence a realizable `list(...)` result). -/
def enumKeyFirst : List (List Char) → List (List Char) :=
  fun l => pyColonKey 1 2 :: l.erase (pyColonKey 1 2)

/-! ## Shared lemmas -/

theorem clamp_range (n : Int) : 0 ≤ max 0 (min 100 n) ∧ max 0 (min 100 n) ≤ 100 :=
  ⟨le_max_left 0 _, max_le (by norm_num) (min_le_left 100 n)⟩

theorem update_messages_eq (max_context_messages : Int)
    (hpos : 0 < max_context_messages) (un fn ln : Option String)
    (ctx : UserContext) (m : Msg) (now : Nat) :
    (update_user_context max_context_messages un fn ln ctx m now).messages
      = (ctx.messages ++ [m]).drop
          ((ctx.messages ++ [m]).length - max_context_messages.toNat) := by
  unfold update_user_context pySliceLast
  by_cases h : ((ctx.messages ++ [m]).length : Int) > max_context_messages
  · simp only [h, if_pos, if_true, hpos]
  · simp only [h, if_false, if_neg, not_false_iff]
    have hle : (ctx.messages ++ [m]).length ≤ max_context_messages.toNat := by omega
    rw [Nat.sub_eq_zero_of_le hle, List.drop_zero]

theorem dictGet_eq_dfl {d : PyDict} {k : String} {dfl : PyVal}
    (h : d.lookup k = Option.none) : dictGet d k dfl = dfl := by
  simp [dictGet, h]

/-- Claim C7: the heuristic scorer is deterministic and total — it is a
pure total Lean function of the message text alone (determinism and
totality by construction), and for every input text the returned score
lies in the interval [0, 100]. -/
theorem C7_heuristic_total_range (message_text : String) :
    0 ≤ simple_lead_analysis message_text ∧
    simple_lead_analysis message_text ≤ 100 ∧
    ∀ t : String, t = message_text →
      simple_lead_analysis t = simple_lead_analysis message_text := by
  refine ⟨?_, ?_, fun t ht => by rw [ht]⟩ <;>
  · unfold simple_lead_analysis
    split
    · omega
    · first
      | exact le_max_left 0 _
      | exact max_le (by norm_num) (min_le_left 100 _)

/-- Witness for C7 at the concrete text `"crm"`. -/
theorem C7_heuristic_total_range_witness :
    0 ≤ simple_lead_analysis "crm" ∧
    simple_lead_analysis "crm" = simple_lead_analysis "crm" := by
  refine ⟨(C7_heuristic_total_range "crm").1,
    (C7_heuristic_total_range "crm").2.2 "crm" rfl⟩

/-! ## Claim C2 -/

/-- Counterexample to claim C2: on the Scenario-A message
"сколько стоит ваша CRM?" the heuristic scorer returns 65 — the CRM
keyword weight 50 plus the question bonus 15, nothing else matches — which
is below the claimed bound of 85. -/
theorem C2_counterexample :
    simple_lead_analysis "сколько стоит ваша CRM?" < 85 := by decide

/-- Claim C2 as amended: for the message "сколько стоит ваша CRM?" the
heuristic scorer returns exactly 65 (high-weight CRM term 50 + question
bonus 15), a value within the [0, 100] cap and above the default
`min_interest_score` of 60. -/
theorem C2_amended_score :
    simple_lead_analysis "сколько стоит ваша CRM?" = 65 ∧
    (60 : Int) ≤ simple_lead_analysis "сколько стоит ваша CRM?" ∧
    simple_lead_analysis "сколько стоит ваша CRM?" ≤ 100 := by decide

/-! ## Claim C5 -/

/-- Claim C5: after any record operation the message list holds at most
`max_context_messages` entries, and it is exactly the FIFO tail of the
appended list — the newest messages of `old ++ [new]`, in order, with the
oldest entries dropped first.  (Quantifying over every starting context
covers every sequence of recorded messages.)  The cap must be positive:
the configured default is 10, and Python `messages[-0:]` would not
truncate at all. -/
theorem C5_messages_bounded (max_context_messages : Int)
    (hpos : 0 < max_context_messages) (un fn ln : Option String)
    (ctx : UserContext) (m : Msg) (now : Nat) :
    (update_user_context max_context_messages un fn ln ctx m now).messages
      = (ctx.messages ++ [m]).drop
          ((ctx.messages ++ [m]).length - max_context_messages.toNat) ∧
    ((update_user_context max_context_messages un fn ln
        ctx m now).messages.length : Int) ≤ max_context_messages := by
  refine ⟨update_messages_eq _ hpos un fn ln ctx m now, ?_⟩
  rw [update_messages_eq _ hpos un fn ln ctx m now, List.length_drop]
  omega

/-- Witness for C5: recording one message into `ctxA` (which already holds
one) keeps both, since 2 ≤ 10. -/
theorem C5_messages_bounded_witness :
    (0 : Int) < 10 ∧
    ((update_user_context 10 Option.none Option.none Option.none ctxA
        ⟨"привет", 5, 2, 5⟩ 5).messages.length : Int) ≤ 10 := by
  refine ⟨by norm_num, (C5_messages_bounded 10 (by norm_num)
    Option.none Option.none Option.none ctxA ⟨"привет", 5, 2, 5⟩ 5).2⟩

/-! ## Claim C3 -/

/-- Counterexample to claim C4: a response whose `is_lead` field is
present but malformed — the string `"false"` — is not replaced by the safe
neutral value `false`; Python `bool("false")` is `True`, so the parsed
result reports a lead. -/
theorem C4_counterexample :
    (parse_ai_response (some [("is_lead", PyVal.str "false")])).is_lead
      = true := rfl

/-- Claim C4 as amended: parsing never raises past the boundary (the
embedding is a total function into `AIAnalysisResult`), the confidence
score is always within [0, 100], a response with no parseable JSON yields
the fixed fallback result, and fields *missing* from the JSON object take
their safe neutral values (`is_lead = false`, score 0, enum fields at
their none/unknown variants).  Present-but-malformed fields, however, are
converted by Python truthiness (`is_lead`) or passed through unvalidated
(the enum-valued fields); a malformed `confidence_score` makes the whole
result fall back to the fixed fallback. -/
theorem C4_amended_defensive (resp : Option PyDict) :
    (0 ≤ (parse_ai_response resp).confidence_score ∧
      (parse_ai_response resp).confidence_score ≤ 100) ∧
    (resp = Option.none → parse_ai_response resp = failureResult) ∧
    (∀ data, resp = some data →
      (data.lookup "is_lead" = Option.none →
        (parse_ai_response resp).is_lead = false) ∧
      (data.lookup "confidence_score" = Option.none →
        (parse_ai_response resp).confidence_score = 0) ∧
      (data.lookup "lead_quality" = Option.none →
        (parse_ai_response resp).lead_quality = PyVal.str "not_lead") ∧
      (data.lookup "urgency_level" = Option.none →
        (parse_ai_response resp).urgency_level = PyVal.str "none") ∧
      (data.lookup "decision_stage" = Option.none →
        (parse_ai_response resp).decision_stage = PyVal.str "awareness")) := by
  refine ⟨?_, ?_, ?_⟩
  · match resp with
    | Option.none =>
      exact ⟨by norm_num [parse_ai_response, failureResult],
        by norm_num [parse_ai_response, failureResult]⟩
    | some data =>
      cases hio : pyInt (dictGet data "confidence_score" (PyVal.int 0)) with
      | none => simp [parse_ai_response, hio, failureResult]
      | some n =>
        simp only [parse_ai_response, hio]
        exact clamp_range n
  · intro h
    subst h
    rfl
  · intro data hd
    subst hd
    cases hio : pyInt (dictGet data "confidence_score" (PyVal.int 0)) with
    | none =>
      refine ⟨fun _ => ?_, fun _ => ?_, fun _ => ?_, fun _ => ?_, fun _ => ?_⟩ <;>
        simp [parse_ai_response, hio, failureResult]
    | some n =>
      refine ⟨fun h1 => ?_, fun h2 => ?_, fun h3 => ?_, fun h4 => ?_,
        fun h5 => ?_⟩
      · simp only [parse_ai_response, hio]
        rw [dictGet_eq_dfl h1]
        rfl
      · have h0 : pyInt (dictGet data "confidence_score" (PyVal.int 0))
            = some 0 := by rw [dictGet_eq_dfl h2]; rfl
        rw [h0] at hio
        cases hio
        simp only [parse_ai_response, h0]
        rfl
      · simp only [parse_ai_response, hio]
        exact dictGet_eq_dfl h3
      · simp only [parse_ai_response, hio]
        exact dictGet_eq_dfl h4
      · simp only [parse_ai_response, hio]
        exact dictGet_eq_dfl h5

/-- Witness for C4 as amended, at the empty JSON object: every field is
missing and takes its neutral default. -/
theorem C4_amended_defensive_witness :
    (parse_ai_response (some [])).is_lead = false ∧
    (parse_ai_response (some [])).confidence_score = 0 ∧
    0 ≤ (parse_ai_response (some [])).confidence_score := by
  refine ⟨((C4_amended_defensive (some [])).2.2 [] rfl).1 rfl,
    ((C4_amended_defensive (some [])).2.2 [] rfl).2.1 rfl,
    (C4_amended_defensive (some [])).1.1⟩

/-! ## Claim C1 -/

/-- Counterexample to claim C1: at the concrete context `ctxA` with an
empty analysis cache, a remote-scorer timeout makes the evaluator
`_analyze_user_context` return `None` — not a non-null result derived from
the heuristic scorer.  (The heuristic fallback on timeout exists only in
the channel parser's per-message path.) -/
theorem C1_counterexample :
    (analyze_user_context (fun _ => 0) RemoteOutcome.timeout [] ctxA).1
      = Option.none := rfl

/-- Claim C1 as amended: for every user context whose fingerprint misses
the analysis cache (which is the state in which the remote call is made at
all), a remote-scorer timeout makes the evaluator return the null result
and leave the analysis cache exactly as it was, so the cache still
contains no entry for that context's fingerprint — only successful remote
results are cached. -/
theorem C1_amended_timeout_null (hashFn : String → Int)
    (cache : AnalysisCache) (ctx : UserContext)
    (hmiss : lookupCache cache (analysisCacheKey hashFn ctx) = Option.none) :
    analyze_user_context hashFn RemoteOutcome.timeout cache ctx
      = (Option.none, cache) ∧
    lookupCache
      (analyze_user_context hashFn RemoteOutcome.timeout cache ctx).2
      (analysisCacheKey hashFn ctx) = Option.none := by
  have hstep : analyze_user_context hashFn RemoteOutcome.timeout cache ctx
      = (Option.none, cache) := by
    simp [analyze_user_context, hmiss, remoteEval]
  exact ⟨hstep, by rw [hstep]; exact hmiss⟩

/-- Witness for C1 as amended, at `ctxA` and the empty cache. -/
theorem C1_amended_timeout_null_witness :
    analyze_user_context (fun _ => 0) RemoteOutcome.timeout [] ctxA
      = (Option.none, []) ∧
    lookupCache
      (analyze_user_context (fun _ => 0) RemoteOutcome.timeout [] ctxA).2
      (analysisCacheKey (fun _ => 0) ctxA) = Option.none :=
  C1_amended_timeout_null (fun _ => 0) [] ctxA rfl

/-! ## Claim C8 -/

theorem dictSet_length_le (c : AnalysisCache) (k : List Char)
    (v : AIAnalysisResult) : (dictSet c k v).length ≤ c.length + 1 := by
  induction c with
  | nil => simp [dictSet]
  | cons kv rest ih =>
    unfold dictSet
    by_cases h : kv.1 = k
    · simp [h]
    · simp only [h, if_neg, not_false_iff, List.length_cons]
      omega

theorem cacheStore_length_le (c : AnalysisCache) (k : List Char)
    (v : AIAnalysisResult) (hc : c.length ≤ 1000) :
    (cacheStore c k v).length ≤ 1000 := by
  unfold cacheStore
  have hd := dictSet_length_le c k v
  by_cases h : (dictSet c k v).length > 1000
  · simp only [h, if_pos, if_true, List.length_drop]
    omega
  · simp only [h, if_neg, not_false_iff]
    omega

/-- Claim C8: after any sequence of insertions through the cache-store
operation of `_analyze_user_context` — which assigns the entry and then,
whenever the dict has grown past 1000 entries, deletes the oldest 500 keys
(batch eviction, not strict LRU) — the analysis cache never holds more
than the 1000-entry cap. -/
theorem C8_cache_bounded (ops : List (List Char × AIAnalysisResult)) :
    (ops.foldl (fun c kv => cacheStore c kv.1 kv.2) []).length ≤ 1000 := by
  suffices h : ∀ (c : AnalysisCache), c.length ≤ 1000 →
      (ops.foldl (fun c kv => cacheStore c kv.1 kv.2) c).length ≤ 1000 by
    exact h [] (by norm_num)
  induction ops with
  | nil => intro c hc; simpa using hc
  | cons kv rest ih =>
    intro c hc
    exact ih (cacheStore c kv.1 kv.2) (cacheStore_length_le c kv.1 kv.2 hc)

/-! ## Claim C9 -/

/-- Decoding of a most-significant-first digit string (proof device for
the injectivity of the decimal printer). -/
def charsToNat (l : List Char) : Nat :=
  l.foldl (fun a c => a * 10 + (c.toNat - 48)) 0

theorem digitChar_toNat : ∀ d, d < 10 → (digitChar d).toNat = 48 + d := by
  intro d hd
  interval_cases d <;> rfl

theorem charsToNat_append_one (xs : List Char) (c : Char) :
    charsToNat (xs ++ [c]) = charsToNat xs * 10 + (c.toNat - 48) := by
  unfold charsToNat
  rw [List.foldl_append]
  rfl

theorem charsToNat_natToChars :
    ∀ fuel n, n < fuel → charsToNat (natToChars fuel n) = n := by
  intro fuel
  induction fuel with
  | zero => intro n hn; omega
  | succ f ih =>
    intro n hn
    unfold natToChars
    by_cases h : n < 10
    · rw [if_pos h]
      show 0 * 10 + ((digitChar n).toNat - 48) = n
      rw [digitChar_toNat n h]
      omega
    · rw [if_neg h]
      rw [charsToNat_append_one]
      have hdiv : n / 10 < f := by
        have h1 : n / 10 < n := Nat.div_lt_self (by omega) (by norm_num)
        omega
      rw [ih (n / 10) hdiv, digitChar_toNat (n % 10) (Nat.mod_lt n (by norm_num))]
      omega

theorem pyStrNat_inj {m n : Nat} (h : pyStrNat m = pyStrNat n) : m = n := by
  have hm := charsToNat_natToChars (m + 1) m (Nat.lt_succ_self m)
  have hn := charsToNat_natToChars (n + 1) n (Nat.lt_succ_self n)
  unfold pyStrNat at h
  rw [h] at hm
  rw [hn] at hm
  omega

theorem natToChars_chars :
    ∀ fuel n c, c ∈ natToChars fuel n → ∃ d, d < 10 ∧ c = digitChar d := by
  intro fuel
  induction fuel with
  | zero => intro n c hc; simp [natToChars] at hc
  | succ f ih =>
    intro n c hc
    unfold natToChars at hc
    by_cases h : n < 10
    · rw [if_pos h] at hc
      simp only [List.mem_singleton] at hc
      exact ⟨n, h, hc⟩
    · rw [if_neg h] at hc
      rcases List.mem_append.mp hc with h1 | h2
      · exact ih (n / 10) c h1
      · simp only [List.mem_singleton] at h2
        exact ⟨n % 10, Nat.mod_lt n (by norm_num), h2⟩

theorem digit_toNat_range {c : Char} (hc : ∃ d, d < 10 ∧ c = digitChar d) :
    48 ≤ c.toNat ∧ c.toNat ≤ 57 := by
  obtain ⟨d, hd, rfl⟩ := hc
  rw [digitChar_toNat d hd]
  omega

theorem colon_not_mem_pyStrNat (n : Nat) : ':' ∉ pyStrNat n := by
  intro hmem
  have := digit_toNat_range (natToChars_chars (n + 1) n _ hmem)
  simp at this

theorem minus_not_mem_pyStrNat (n : Nat) : '-' ∉ pyStrNat n := by
  intro hmem
  have := digit_toNat_range (natToChars_chars (n + 1) n _ hmem)
  simp at this

theorem colon_not_mem_pyStrInt (i : Int) : ':' ∉ pyStrInt i := by
  unfold pyStrInt
  by_cases h : i < 0
  · rw [if_pos h]
    intro hmem
    rcases List.mem_cons.mp hmem with h1 | h2
    · simp at h1
    · exact colon_not_mem_pyStrNat _ h2
  · rw [if_neg h]
    exact colon_not_mem_pyStrNat _

theorem pyStrNat_ne_nil (n : Nat) : pyStrNat n ≠ [] := by
  unfold pyStrNat natToChars
  by_cases h : n < 10
  · simp [h]
  · simp [h]

theorem pyStrInt_inj {i j : Int} (h : pyStrInt i = pyStrInt j) : i = j := by
  unfold pyStrInt at h
  by_cases hi : i < 0 <;> by_cases hj : j < 0
  · rw [if_pos hi, if_pos hj] at h
    have := pyStrNat_inj (List.cons_injective h)
    omega
  · rw [if_pos hi, if_neg hj] at h
    exfalso
    exact minus_not_mem_pyStrNat j.toNat (h ▸ List.mem_cons_self '-' _)
  · rw [if_neg hi, if_pos hj] at h
    exfalso
    exact minus_not_mem_pyStrNat i.toNat (h ▸ List.mem_cons_self '-' _)
  · rw [if_neg hi, if_neg hj] at h
    have := pyStrNat_inj h
    omega

theorem colon_split_inj :
    ∀ (l1 l2 r1 r2 : List Char), ':' ∉ l1 → ':' ∉ l2 →
      l1 ++ ':' :: r1 = l2 ++ ':' :: r2 → l1 = l2 := by
  intro l1
  induction l1 with
  | nil =>
    intro l2 r1 r2 _ h2 h
    match l2 with
    | [] => rfl
    | c :: l2' =>
      simp only [List.nil_append, List.cons_append, List.cons.injEq] at h
      exact absurd (h.1 ▸ List.mem_cons_self c l2') h2
  | cons a l1' ih =>
    intro l2 r1 r2 h1 h2 h
    match l2 with
    | [] =>
      simp only [List.nil_append, List.cons_append, List.cons.injEq] at h
      exact absurd (h.1.symm ▸ List.mem_cons_self a l1') h1
    | b :: l2' =>
      simp only [List.cons_append, List.cons.injEq] at h
      have := ih l2' r1 r2 (fun hx => h1 (List.mem_cons_of_mem a hx))
        (fun hx => h2 (List.mem_cons_of_mem b hx)) h.2
      rw [h.1, this]

/-- Claim C9: analysis-cache entries are isolated per user — the cache key
`f"{user_id}:{hash(texts)}"` starts with the decimal user id, which
contains no separator character, so two contexts with distinct user ids
always produce distinct keys, even when their recent message texts (and
hence the hash component) are identical; a dict entry stored under one
user's key is therefore never returned for the other. -/
theorem C9_cache_keys_isolated (hashFn : String → Int)
    (ctx1 ctx2 : UserContext) (hne : ctx1.user_id ≠ ctx2.user_id) :
    analysisCacheKey hashFn ctx1 ≠ analysisCacheKey hashFn ctx2 := by
  intro h
  unfold analysisCacheKey pyColonKey at h
  exact hne (pyStrInt_inj (colon_split_inj _ _ _ _
    (colon_not_mem_pyStrInt _) (colon_not_mem_pyStrInt _) h))

/-- Witness for C9: the contexts `ctxA` (user 7) and `ctxB` (user 8) hold
identical messages yet get distinct cache keys. -/
theorem C9_cache_keys_isolated_witness :
    ctxA.user_id ≠ ctxB.user_id ∧
    analysisCacheKey (fun _ => 0) ctxA ≠ analysisCacheKey (fun _ => 0) ctxB :=
  ⟨by decide, C9_cache_keys_isolated (fun _ => 0) ctxA ctxB (by decide)⟩

/-! ## Claim C6 -/

theorem lookupLead_setLead_self (st : ProcessedLeads) (uid : Int) (t : Nat) :
    lookupLead (setLead st uid t) uid = some t := by
  induction st with
  | nil => simp [setLead, lookupLead]
  | cons p rest ih =>
    unfold setLead
    by_cases h : p.1 = uid
    · simp [lookupLead, h]
    · simp only [h, if_neg, not_false_iff]
      unfold lookupLead
      rw [if_neg h]
      exact ih

theorem lookupLead_setLead_other (st : ProcessedLeads) (uid u : Int) (t : Nat)
    (hne : u ≠ uid) : lookupLead (setLead st uid t) u = lookupLead st u := by
  have hne2 : uid ≠ u := Ne.symm hne
  induction st with
  | nil => simp [setLead, lookupLead, hne2]
  | cons p rest ih =>
    obtain ⟨pu, pt⟩ := p
    unfold setLead
    by_cases h : pu = uid
    · subst h
      simp [lookupLead, hne2]
    · simp only [h, if_neg, not_false_iff]
      unfold lookupLead
      by_cases h2 : pu = u
      · simp [h2]
      · simp only [h2, if_neg, not_false_iff]
        exact ih

theorem dedup_run_spec (W : Nat) :
    ∀ (evs : List EvalEvent) (st : ProcessedLeads),
      evs.Pairwise (fun a b => a.time ≤ b.time) →
      (∀ u last, lookupLead st u = some last → ∀ e ∈ evs, last ≤ e.time) →
      ((∀ p ∈ dedup_run W st evs, ∀ last, lookupLead st p.1 = some last →
          last + W * 3600 ≤ p.2) ∧
       (dedup_run W st evs).Pairwise
         (fun a b => a.1 = b.1 → a.2 + W * 3600 ≤ b.2)) := by
  intro evs
  induction evs with
  | nil => intro st _ _; exact ⟨fun p hp => absurd hp (by simp [dedup_run]), by
      simp [dedup_run]⟩
  | cons e rest ih =>
    intro st hmono hst
    have hhead : ∀ b ∈ rest, e.time ≤ b.time :=
      (List.pairwise_cons.mp hmono).1
    have htail : rest.Pairwise (fun a b => a.time ≤ b.time) :=
      (List.pairwise_cons.mp hmono).2
    have hst_rest : ∀ u last, lookupLead st u = some last →
        ∀ e' ∈ rest, last ≤ e'.time :=
      fun u last hl e' he' => hst u last hl e' (List.mem_cons_of_mem e he')
    unfold dedup_run
    by_cases hrecent : was_recently_analyzed W st e.userId e.time
    · rw [if_pos hrecent]
      exact ih st htail hst_rest
    · rw [if_neg hrecent]
      by_cases hacc : e.accepted
      · rw [if_pos hacc]
        have hst2 : ∀ u last,
            lookupLead (setLead st e.userId e.time) u = some last →
            ∀ e' ∈ rest, last ≤ e'.time := by
          intro u last hl e' he'
          by_cases hu : u = e.userId
          · subst hu
            rw [lookupLead_setLead_self] at hl
            cases hl
            exact hhead e' he'
          · rw [lookupLead_setLead_other st e.userId u e.time hu] at hl
            exact hst_rest u last hl e' he'
        have ih2 := ih (setLead st e.userId e.time) htail hst2
        have hgap : ∀ last, lookupLead st e.userId = some last →
            last + W * 3600 ≤ e.time := by
          intro last hl
          unfold was_recently_analyzed at hrecent
          rw [hl] at hrecent
          simp only [decide_eq_true_eq] at hrecent
          have hle : last ≤ e.time := hst e.userId last hl e (List.mem_cons_self e rest)
          omega
        constructor
        · intro p hp last hl
          rcases List.mem_cons.mp hp with hp1 | hp2
          · subst hp1
            exact hgap last hl
          · by_cases hu : p.1 = e.userId
            · have h1 : lookupLead (setLead st e.userId e.time) p.1
                  = some e.time := by rw [hu]; exact lookupLead_setLead_self st e.userId e.time
              have h2 := ih2.1 p hp2 e.time h1
              have h3 : last ≤ e.time :=
                hst p.1 last hl e (List.mem_cons_self e rest)
              omega
            · have h1 : lookupLead (setLead st e.userId e.time) p.1
                  = some last := by
                rw [lookupLead_setLead_other st e.userId p.1 e.time hu]
                exact hl
              exact ih2.1 p hp2 last h1
        · refine List.pairwise_cons.mpr ⟨?_, ih2.2⟩
          intro b hb heq
          refine ih2.1 b hb e.time ?_
          rw [← heq]
          exact lookupLead_setLead_self st e.userId e.time
      · rw [if_neg hacc]
        exact ih st htail hst_rest

/-- Claim C6: for a fixed user, no two lead emissions accepted by the
cool-down gate of `process_message` lie within the cool-down window —
along any chronologically ordered event sequence starting from an empty
`processed_leads` map, every two accepted evaluations of the same user are
at least `context_window_hours` apart. -/
theorem C6_cooldown_separation (context_window_hours : Nat)
    (evs : List EvalEvent)
    (hmono : evs.Pairwise (fun a b => a.time ≤ b.time)) :
    (dedup_run context_window_hours [] evs).Pairwise
      (fun a b => a.1 = b.1 → a.2 + context_window_hours * 3600 ≤ b.2) :=
  (dedup_run_spec context_window_hours evs [] hmono
    (by intro u last hl; simp [lookupLead] at hl)).2

/-- Witness for C6: two accepted events for user 1 at times 0 and 10
seconds under a 24-hour window — the second is suppressed, and the single
emitted lead trivially satisfies the pairwise separation. -/
theorem C6_cooldown_separation_witness :
    (dedup_run 24 [] [⟨0, 1, true⟩, ⟨10, 1, true⟩]).Pairwise
      (fun a b => a.1 = b.1 → a.2 + 24 * 3600 ≤ b.2) :=
  C6_cooldown_separation 24 [⟨0, 1, true⟩, ⟨10, 1, true⟩]
    (by simp [List.pairwise_cons])

/-! ## Claim C10 -/

theorem bigKeys_length : bigKeys.length = 10000 := by
  unfold bigKeys
  rw [List.length_map, List.length_range]

theorem key12_not_mem_bigKeys : pyColonKey 1 2 ∉ bigKeys := by
  intro hmem
  unfold bigKeys at hmem
  obtain ⟨i, _, heq⟩ := List.mem_map.mp hmem
  unfold pyColonKey at heq
  have h01 : pyStrInt 0 = pyStrInt 1 :=
    colon_split_inj _ _ _ _ (colon_not_mem_pyStrInt _)
      (colon_not_mem_pyStrInt _) heq
  have := pyStrInt_inj h01
  omega

/-- Counterexample to claim C10: the dedup mark does not survive every
run of the handler.  At a seen-message set already holding 10000 keys
(`bigChanState`), processing the fresh key `"1:2"` triggers the batch
prune `list(self.processed_messages)[:5000]`; under the realizable
set-iteration order `enumKeyFirst` — CPython's order is arbitrary, and
this one lists the just-added key first — the prune evicts that very key,
so after the call the key is absent from the set and a redelivery would
not be the claimed no-op. -/
theorem C10_counterexample :
    pyColonKey 1 2 ∉
      (chan_process_message 60 (fun _ => 0) enumKeyFirst
        (ChanRemote.success 0) false 0 bigChanState 1 2 3
        "x").processed_messages := by
  have hfresh : ¬ (pyColonKey 1 2 ∈ bigKeys) := key12_not_mem_bigKeys
  have hdropped : pyColonKey 1 2 ∈
      pySliceFirst 5000 (enumKeyFirst (bigKeys ++ [pyColonKey 1 2])) := by
    unfold enumKeyFirst pySliceFirst
    rw [show (5000 : Nat) = 4999 + 1 by norm_num, List.take_succ_cons]
    exact List.mem_cons_self _ _
  have hlen : (bigKeys ++ [pyColonKey 1 2]).length > 10000 := by
    rw [List.length_append, bigKeys_length]
    norm_num
  have hscore : ¬ (analyze_message (ChanRemote.success 0) "x" ≥ (60 : Int)) :=
    by decide
  unfold chan_process_message bigChanState
  dsimp only
  rw [if_neg hfresh, if_neg hscore]
  dsimp only
  rw [if_pos hlen]
  intro hmem2
  have hpred := (List.mem_filter.mp hmem2).2
  simp only [decide_eq_true_eq] at hpred
  exact hpred hdropped

/-- Claim C10 as amended: the `(chatID, messageID)` dedup key is added to
the seen-message set before the message is scored and unconditionally on
the evaluation outcome — for every remote outcome, threshold, database
reply, lead-cache state and set-iteration order — and a redelivery of an
already-seen key is a complete no-op (the state, including the emitted
leads, is returned unchanged and no evaluation takes place).  The key is
guaranteed to still be present after the call only when the insertion
does not push the set past the 10000-entry prune threshold: the batch
prune discards 5000 entries of the set's arbitrary iteration order, which
may include the key just added. -/
theorem C10_amended_dedup (min_interest_score : Int) (hashFn : String → Int)
    (setEnum : List (List Char) → List (List Char)) (outcome : ChanRemote)
    (leadInDb : Bool) (now : Nat) (st : ChanState)
    (chat_id message_id user_id : Int) (message_text : String)
    (hsize : st.processed_messages.length < 10000) :
    pyColonKey chat_id message_id ∈
      (chan_process_message min_interest_score hashFn setEnum outcome leadInDb
        now st chat_id message_id user_id message_text).processed_messages ∧
    (pyColonKey chat_id message_id ∈ st.processed_messages →
      chan_process_message min_interest_score hashFn setEnum outcome leadInDb
        now st chat_id message_id user_id message_text = st) := by
  by_cases hmem : pyColonKey chat_id message_id ∈ st.processed_messages
  · have hid : chan_process_message min_interest_score hashFn setEnum outcome
        leadInDb now st chat_id message_id user_id message_text = st := by
      unfold chan_process_message
      rw [if_pos hmem]
    exact ⟨by rw [hid]; exact hmem, fun _ => hid⟩
  · refine ⟨?_, fun h => absurd h hmem⟩
    have hlen : ¬ ((st.processed_messages
        ++ [pyColonKey chat_id message_id]).length > 10000) := by
      simp only [List.length_append, List.length_cons, List.length_nil]
      omega
    have hkey : pyColonKey chat_id message_id ∈
        (if (st.processed_messages
            ++ [pyColonKey chat_id message_id]).length > 10000
         then (st.processed_messages ++ [pyColonKey chat_id message_id]).filter
           (fun k => decide (k ∉ pySliceFirst 5000
             (setEnum (st.processed_messages
               ++ [pyColonKey chat_id message_id]))))
         else st.processed_messages ++ [pyColonKey chat_id message_id]) := by
      rw [if_neg hlen]
      simp
    unfold chan_process_message
    rw [if_neg hmem]
    by_cases hscore : analyze_message outcome message_text ≥ min_interest_score
    · rw [if_pos hscore]
      by_cases hfresh : ¬ leadInDb ∧
          lookupRecent st.recent_leads_cache
            (pyColonKey user_id (hashFn ⟨pySliceFirst 100 message_text.data⟩))
            = Option.none
      · rw [if_pos hfresh]
        exact hkey
      · rw [if_neg hfresh]
        exact hkey
    · rw [if_neg hscore]
      exact hkey

/-- Witness for C10 as amended, at a one-key state well below the prune
threshold: redelivery of the seen key `"1:2"` leaves the state untouched,
and the key remains recorded. -/
theorem C10_amended_dedup_witness :
    chan_process_message 60 (fun _ => 0) (fun l => l) (ChanRemote.success 99)
      false 0 ⟨[pyColonKey 1 2], [], []⟩ 1 2 3 "x"
      = ⟨[pyColonKey 1 2], [], []⟩ ∧
    pyColonKey 1 2 ∈
      (chan_process_message 60 (fun _ => 0) (fun l => l)
        (ChanRemote.success 99) false 0 ⟨[pyColonKey 1 2], [], []⟩ 1 2 3
        "x").processed_messages := by
  have h := C10_amended_dedup 60 (fun _ => 0) (fun l => l)
    (ChanRemote.success 99) false 0 ⟨[pyColonKey 1 2], [], []⟩ 1 2 3 "x"
    (by decide)
  exact ⟨h.2 (List.mem_singleton.mpr rfl), h.1⟩
